import Mathlib

/-!
Shallow embedding of the Urafiki captive-portal voucher system (src/main.py).

The persisted state consists of three tables (CSV files in the source):
the Voucher Store (`voucher_code`, `assigned`), the Mapping Log
(`timestamp`, `full_name`, `voucher_code`) and the Authorization List
(`full_name`).  Rows are modelled as structures, tables as lists in file
order, and the Streamlit handlers as pure state-passing functions.
-/

/-- A row of the Voucher Store (`data/vouchers.csv`). -/
structure Voucher where
  voucher_code : String
  assigned : Bool
deriving Repr, DecidableEq

/-- A row of the Mapping Log (`data/mappings.csv`). -/
structure Mapping where
  timestamp : String
  full_name : String
  voucher_code : String
deriving Repr, DecidableEq

/-- The persisted state of the application: the three CSV-backed tables,
each kept in file (import) order. -/
structure St where
  vouchers : List Voucher
  mappings : List Mapping
  authorized_users : List String
deriving Repr, DecidableEq

/-- The state right after first-run initialisation: all three CSV files are
created empty (src/main.py lines 14-29). -/
def initialSt : St := St.mk [] [] []

/-- Split a character list on runs of whitespace, dropping empty pieces;
`acc` holds the characters of the current word in reverse. -/
def splitWsAux : List Char → List Char → List (List Char)
  | [], acc => if acc.isEmpty then [] else [acc.reverse]
  | c :: cs, acc =>
    if c.isWhitespace then
      if acc.isEmpty then splitWsAux cs []
      else acc.reverse :: splitWsAux cs []
    else splitWsAux cs (c :: acc)

/-- Python's `s.lower().split()`: lowercase, then split on runs of
whitespace, dropping empty pieces (src/main.py lines 56, 62-63). -/
def nameParts (s : String) : List String :=
  (splitWsAux (s.toList.map Char.toLower) []).map String.mk

/-- `is_user_authorized` (src/main.py lines 52-69): true iff some
whitespace-separated lowercase token of the candidate name occurs among the
tokens of some entry of the Authorization List. -/
def is_user_authorized (full_name : String) (authorized_users : List String) : Bool :=
  authorized_users.any fun auth_name =>
    (nameParts full_name).any fun part => (nameParts auth_name).contains part

/-- Outcome of `assign_voucher`: the Python function returns a
`(success, payload)` pair where the payload is an error message on failure
and the voucher code on success (src/main.py lines 71-107). -/
inductive AssignResult where
  | notAuthorized
  | noVouchersAvailable
  | success (code : String)
deriving Repr, DecidableEq

/-- The pandas mask-assignment `vouchers_df.loc[vouchers_df[..] == voucher_code,
'assigned'] = True` (src/main.py line 95): every row whose code equals the
chosen code is marked assigned. -/
def markAssigned (code : String) (vs : List Voucher) : List Voucher :=
  vs.map fun v => if v.voucher_code = code then Voucher.mk v.voucher_code true else v

/-- `assign_voucher` (src/main.py lines 71-107).  The timestamp `ts` stands
for `datetime.now().strftime(..)`, an external input.  Steps: authorization
check; idempotent lookup of an existing mapping by exact `full_name`; pick
the first row with `assigned == False`; mark every row carrying that code as
assigned and append one mapping row. -/
def assign_voucher (full_name ts : String) (s : St) : AssignResult × St :=
  if is_user_authorized full_name s.authorized_users = false then
    (AssignResult.notAuthorized, s)
  else
    match (s.mappings.filter (fun m => m.full_name = full_name)).head? with
    | some m => (AssignResult.success m.voucher_code, s)
    | none =>
      match (s.vouchers.filter (fun v => v.assigned = false)).head? with
      | none => (AssignResult.noVouchersAvailable, s)
      | some v =>
        (AssignResult.success v.voucher_code,
          St.mk (markAssigned v.voucher_code s.vouchers)
            (s.mappings ++ [Mapping.mk ts full_name v.voucher_code])
            s.authorized_users)

/-- An uploaded voucher CSV that parsed successfully: whether it carries a
`voucher_code` column, and the column's values in row order.  (Other columns
of the upload never influence the logic.) -/
structure VoucherUpload where
  hasVoucherCodeColumn : Bool
  rows : List String
deriving Repr, DecidableEq

/-- Outcome of an admin upload (src/main.py lines 130-155). -/
inductive ImportResult where
  | schemaInvalid
  | ok (count : Nat)
deriving Repr, DecidableEq

/-- The voucher-upload handler of admin tab 1 (src/main.py lines 132-140):
reject the file unless it has a `voucher_code` column; otherwise set the
whole `assigned` column to `False` and overwrite `data/vouchers.csv` with
the uploaded rows. -/
def import_vouchers (u : VoucherUpload) (s : St) : ImportResult × St :=
  if u.hasVoucherCodeColumn = false then
    (ImportResult.schemaInvalid, s)
  else
    (ImportResult.ok u.rows.length,
      St.mk (u.rows.map fun c => Voucher.mk c false) s.mappings s.authorized_users)

/-- The user-upload handler of admin tab 2 (src/main.py lines 144-155):
reject the file unless it has a `full_name` column; otherwise overwrite
`data/authorized_users.csv` with the uploaded rows. -/
def import_users (hasFullNameColumn : Bool) (names : List String) (s : St) :
    ImportResult × St :=
  if hasFullNameColumn = false then
    (ImportResult.schemaInvalid, s)
  else
    (ImportResult.ok names.length, St.mk s.vouchers s.mappings names)

/-- One state-changing operation available through the UI. -/
inductive Op where
  | assign (full_name ts : String)
  | importVouchers (u : VoucherUpload)
  | importUsers (hasFullNameColumn : Bool) (names : List String)
deriving Repr, DecidableEq

/-- Apply one operation, keeping only the resulting state. -/
def applyOp (s : St) : Op → St
  | Op.assign n ts => (assign_voucher n ts s).2
  | Op.importVouchers u => (import_vouchers u s).2
  | Op.importUsers h ns => (import_users h ns s).2

/-- Run a sequence of operations from a state. -/
def run (s : St) (ops : List Op) : St := ops.foldl applyOp s

/-- Holds when an operation, if it is a voucher import, carries
pairwise-distinct codes.  Non-import operations satisfy it trivially. -/
def opImportNodup : Op → Prop
  | Op.importVouchers u => u.rows.Nodup
  | _ => True

instance (op : Op) : Decidable (opImportNodup op) :=
  match op with
  | Op.assign _ _ => isTrue trivial
  | Op.importVouchers u => (inferInstance : Decidable u.rows.Nodup)
  | Op.importUsers _ _ => isTrue trivial

/-- Statistics metric "Total Vouchers" (src/main.py line 167). -/
def totalVouchers (s : St) : Nat := s.vouchers.length

/-- Statistics metric "Available Vouchers" (src/main.py line 168). -/
def availableVouchers (s : St) : Nat :=
  (s.vouchers.filter (fun v => v.assigned = false)).length

/-- Statistics metric "Assigned Vouchers" (src/main.py line 172). -/
def assignedVouchers (s : St) : Nat :=
  (s.vouchers.filter (fun v => v.assigned = true)).length

/-- The invariant claimed in the spec between the Voucher Store and the
Mapping Log: a voucher row is assigned only if some mapping carries its
code, and every mapping's code belongs to some assigned voucher row.
(A decidable predicate: both quantifiers are bounded by lists.) -/
def storeLogConsistent (s : St) : Prop :=
  (∀ v ∈ s.vouchers, v.assigned = true →
      ∃ m ∈ s.mappings, m.voucher_code = v.voucher_code) ∧
  (∀ m ∈ s.mappings,
      ∃ v ∈ s.vouchers, v.voucher_code = m.voucher_code ∧ v.assigned = true)

instance (s : St) : Decidable (storeLogConsistent s) := by
  unfold storeLogConsistent
  infer_instance

/-- The voucher codes of the unassigned rows, in store order. -/
def unassignedCodes (s : St) : List String :=
  (s.vouchers.filter (fun v => v.assigned = false)).map (fun v => v.voucher_code)

/-- Process a list of requesters in order, one `assign_voucher` call each,
collecting the results. -/
def assignAll (names : List String) (ts : String) (s : St) : List AssignResult × St :=
  match names with
  | [] => ([], s)
  | n :: rest =>
    let p := assign_voucher n ts s
    let q := assignAll rest ts p.2
    (p.1 :: q.1, q.2)

/-! ## Helper lemmas -/

theorem mem_of_head_some {α : Type} {l : List α} {a : α} (h : l.head? = some a) :
    a ∈ l := by
  cases l with
  | nil => simp at h
  | cons b t =>
    simp at h
    simp [h]

theorem map_code_markAssigned (c : String) (vs : List Voucher) :
    (markAssigned c vs).map (fun v => v.voucher_code)
      = vs.map (fun v => v.voucher_code) := by
  unfold markAssigned
  rw [List.map_map]
  apply List.map_congr_left
  intro v _
  by_cases h : v.voucher_code = c <;> simp [h]

theorem length_filter_unassigned (vs : List Voucher) :
    (vs.filter (fun v => v.assigned = false)).length
      = vs.length - (vs.filter (fun v => v.assigned = true)).length := by
  induction vs with
  | nil => rfl
  | cons v t ih =>
    have hle := List.length_filter_le (fun v : Voucher => v.assigned) t
    cases hv : v.assigned <;> simp [List.filter_cons, hv] at ih ⊢ <;> omega

theorem markAssigned_not_mem (c : String) (vs : List Voucher)
    (h : c ∉ vs.map (fun v => v.voucher_code)) : markAssigned c vs = vs := by
  induction vs with
  | nil => rfl
  | cons v t ih =>
    simp only [List.map_cons, List.mem_cons, not_or] at h
    unfold markAssigned at ih ⊢
    simp only [List.map_cons, ih h.2]
    rw [if_neg (fun hh => h.1 hh.symm)]

theorem filter_markAssigned_find (vs : List Voucher) (v₀ : Voucher)
    (hnodup : (vs.map (fun v => v.voucher_code)).Nodup)
    (hfind : List.find? (fun v => !v.assigned) vs = some v₀) :
    (markAssigned v₀.voucher_code vs).filter (fun v => v.assigned = false)
      = (vs.filter (fun v => v.assigned = false)).tail := by
  induction vs with
  | nil => cases hfind
  | cons v t ih =>
    cases hv : v.assigned
    · rw [List.find?_cons_of_pos _ (by simp [hv])] at hfind
      injection hfind with heq
      subst heq
      have hnm : v.voucher_code ∉ t.map (fun v => v.voucher_code) := by
        simp only [List.map_cons, List.nodup_cons] at hnodup
        exact hnodup.1
      unfold markAssigned
      simp only [List.map_cons, if_pos rfl]
      rw [show (t.map fun w => if w.voucher_code = v.voucher_code
          then Voucher.mk w.voucher_code true else w) = markAssigned v.voucher_code t from rfl]
      rw [markAssigned_not_mem _ _ hnm]
      rw [List.filter_cons_of_neg (by simp), List.filter_cons_of_pos (by simp [hv])]
      rfl
    · have hfind2 : List.find? (fun v => !v.assigned) t = some v₀ := by
        rwa [List.find?_cons_of_neg _ (by simp [hv])] at hfind
      have hne : v.voucher_code ≠ v₀.voucher_code := by
        have hv₀t : v₀ ∈ t := List.mem_of_find?_eq_some hfind2
        simp only [List.map_cons, List.nodup_cons] at hnodup
        intro he
        exact hnodup.1 (he ▸ List.mem_map_of_mem _ hv₀t)
      have hnd2 : (t.map (fun v => v.voucher_code)).Nodup := by
        simp only [List.map_cons, List.nodup_cons] at hnodup
        exact hnodup.2
      unfold markAssigned
      simp only [List.map_cons, if_neg hne]
      rw [show (t.map fun w => if w.voucher_code = v₀.voucher_code
          then Voucher.mk w.voucher_code true else w) = markAssigned v₀.voucher_code t from rfl]
      rw [List.filter_cons_of_neg (by simp [hv]), List.filter_cons_of_neg (by simp [hv])]
      exact ih hnd2 hfind2

theorem availableVouchers_eq_length (s : St) :
    availableVouchers s = (unassignedCodes s).length := by
  unfold availableVouchers unassignedCodes
  rw [List.length_map]

theorem assign_voucher_fresh_step (full_name ts : String) (s : St) (v₀ : Voucher)
    (hauth : is_user_authorized full_name s.authorized_users = true)
    (hno : ∀ m ∈ s.mappings, m.full_name ≠ full_name)
    (hnodup : (s.vouchers.map (fun v => v.voucher_code)).Nodup)
    (hfind : List.find? (fun v => !v.assigned) s.vouchers = some v₀) :
    (assign_voucher full_name ts s).1 = AssignResult.success v₀.voucher_code ∧
    unassignedCodes ((assign_voucher full_name ts s).2) = (unassignedCodes s).tail ∧
    ((assign_voucher full_name ts s).2).vouchers.map (fun v => v.voucher_code)
      = s.vouchers.map (fun v => v.voucher_code) ∧
    ((assign_voucher full_name ts s).2).authorized_users = s.authorized_users ∧
    ((assign_voucher full_name ts s).2).mappings
      = s.mappings ++ [Mapping.mk ts full_name v₀.voucher_code] := by
  have hfind_m : s.mappings.find? (fun m => m.full_name = full_name) = none := by
    rw [List.find?_eq_none]
    intro m hm
    simp [hno m hm]
  have hstate : assign_voucher full_name ts s =
      (AssignResult.success v₀.voucher_code,
        St.mk (markAssigned v₀.voucher_code s.vouchers)
          (s.mappings ++ [Mapping.mk ts full_name v₀.voucher_code]) s.authorized_users) := by
    simp [assign_voucher, hauth, hfind_m, hfind]
  rw [hstate]
  refine ⟨rfl, ?_, map_code_markAssigned _ _, rfl, rfl⟩
  show ((markAssigned v₀.voucher_code s.vouchers).filter (fun v => v.assigned = false)).map
      (fun v => v.voucher_code) = (unassignedCodes s).tail
  rw [filter_markAssigned_find s.vouchers v₀ hnodup hfind]
  unfold unassignedCodes
  rw [List.map_tail]

/-! ## Claim theorems -/

/-- Claim C3: `is_user_authorized` returns true iff some lowercase
whitespace token of the candidate equals some token of some entry of the
Authorization List; in particular "Smith Johnson" is authorized when the
list holds "John Smith". -/
theorem is_user_authorized_iff :
    (∀ (full_name : String) (authorized_users : List String),
      is_user_authorized full_name authorized_users = true ↔
        ∃ auth_name ∈ authorized_users, ∃ part ∈ nameParts full_name,
          part ∈ nameParts auth_name) ∧
    is_user_authorized "Smith Johnson" ["John Smith"] = true := by
  constructor
  · intro full_name authorized_users
    simp [is_user_authorized]
  · decide

/-- Claim C4: a request by a name the Authorization List does not match
fails with the not-authorized outcome and leaves the state untouched. -/
theorem assign_voucher_not_authorized (full_name ts : String) (s : St)
    (h : is_user_authorized full_name s.authorized_users = false) :
    assign_voucher full_name ts s = (AssignResult.notAuthorized, s) := by
  simp [assign_voucher, h]

/-- Witness for C4: "Bob" shares no token with "Jane Doe". -/
theorem assign_voucher_not_authorized_witness :
    is_user_authorized "Bob" (St.mk [] [] ["Jane Doe"]).authorized_users = false ∧
    assign_voucher "Bob" "t" (St.mk [] [] ["Jane Doe"])
      = (AssignResult.notAuthorized, St.mk [] [] ["Jane Doe"]) :=
  ⟨by decide, assign_voucher_not_authorized "Bob" "t" (St.mk [] [] ["Jane Doe"]) (by decide)⟩

/-- Claim C7: a voucher upload carrying a `voucher_code` column replaces
the whole Voucher Store with exactly the uploaded rows, every one
unassigned, and leaves the Mapping Log and Authorization List alone. -/
theorem import_vouchers_overwrites (u : VoucherUpload) (s : St)
    (h : u.hasVoucherCodeColumn = true) :
    (import_vouchers u s).1 = ImportResult.ok u.rows.length ∧
    ((import_vouchers u s).2).vouchers.map (fun v => v.voucher_code) = u.rows ∧
    (∀ v ∈ ((import_vouchers u s).2).vouchers, v.assigned = false) ∧
    ((import_vouchers u s).2).mappings = s.mappings ∧
    ((import_vouchers u s).2).authorized_users = s.authorized_users := by
  simp [import_vouchers, h]
  rw [show ((fun v : Voucher => v.voucher_code) ∘ fun c => Voucher.mk c false) = id from rfl,
    List.map_id]

/-- Witness for C7: importing codes A1, A2 over the fresh state. -/
theorem import_vouchers_overwrites_witness :
    (import_vouchers (VoucherUpload.mk true ["A1", "A2"]) initialSt).1
        = ImportResult.ok (VoucherUpload.mk true ["A1", "A2"]).rows.length ∧
    ((import_vouchers (VoucherUpload.mk true ["A1", "A2"]) initialSt).2).vouchers.map
        (fun v => v.voucher_code) = (VoucherUpload.mk true ["A1", "A2"]).rows ∧
    (∀ v ∈ ((import_vouchers (VoucherUpload.mk true ["A1", "A2"]) initialSt).2).vouchers,
        v.assigned = false) ∧
    ((import_vouchers (VoucherUpload.mk true ["A1", "A2"]) initialSt).2).mappings
        = initialSt.mappings ∧
    ((import_vouchers (VoucherUpload.mk true ["A1", "A2"]) initialSt).2).authorized_users
        = initialSt.authorized_users :=
  import_vouchers_overwrites (VoucherUpload.mk true ["A1", "A2"]) initialSt (by decide)

/-- Claim C8: a voucher upload that parses but lacks the `voucher_code`
column is rejected as schema-invalid and the state is exactly unchanged. -/
theorem import_vouchers_missing_column (u : VoucherUpload) (s : St)
    (h : u.hasVoucherCodeColumn = false) :
    import_vouchers u s = (ImportResult.schemaInvalid, s) := by
  simp [import_vouchers, h]

/-- Witness for C8: a column-less upload over a one-voucher store. -/
theorem import_vouchers_missing_column_witness :
    import_vouchers (VoucherUpload.mk false ["A1"]) (St.mk [Voucher.mk "B1" true] [] [])
      = (ImportResult.schemaInvalid, St.mk [Voucher.mk "B1" true] [] []) :=
  import_vouchers_missing_column (VoucherUpload.mk false ["A1"])
    (St.mk [Voucher.mk "B1" true] [] []) (by decide)

/-- Claim C9: the statistics metrics satisfy available = total - assigned
in every state, hence after every sequence of operations. -/
theorem available_eq_total_sub_assigned (s : St) :
    availableVouchers s = totalVouchers s - assignedVouchers s :=
  length_filter_unassigned s.vouchers

/-- Counterexample to claim C2 as stated: "Jane Doe" is authorized, yet
with an empty Voucher Store and no prior mapping the first of the two
calls already fails with no-vouchers-available instead of succeeding. -/
theorem idempotence_needs_a_voucher :
    is_user_authorized "Jane Doe" (St.mk [] [] ["Jane Doe"]).authorized_users = true ∧
    (assign_voucher "Jane Doe" "t1" (St.mk [] [] ["Jane Doe"])).1
      = AssignResult.noVouchersAvailable := by decide

/-- Claim C2, amended: for an authorized name with no prior mapping,
provided at least one voucher is unassigned, two successive calls both
succeed with the same code and exactly one mapping row carries the name. -/
theorem assign_voucher_idempotent (full_name ts₁ ts₂ : String) (s : St)
    (hauth : is_user_authorized full_name s.authorized_users = true)
    (hno : ∀ m ∈ s.mappings, m.full_name ≠ full_name)
    (havail : availableVouchers s ≠ 0) :
    ∃ code,
      (assign_voucher full_name ts₁ s).1 = AssignResult.success code ∧
      (assign_voucher full_name ts₂ ((assign_voucher full_name ts₁ s).2)).1
        = AssignResult.success code ∧
      (((assign_voucher full_name ts₂ ((assign_voucher full_name ts₁ s).2)).2).mappings.filter
          (fun m => m.full_name = full_name)).length = 1 := by
  have hfind_m : s.mappings.find? (fun m => m.full_name = full_name) = none := by
    rw [List.find?_eq_none]
    intro m hm
    simp [hno m hm]
  obtain ⟨v₀, hfind⟩ :
      ∃ v₀, List.find? (fun v => !v.assigned) s.vouchers = some v₀ := by
    cases hf : List.find? (fun v => !v.assigned) s.vouchers with
    | none =>
      rw [List.find?_eq_none] at hf
      refine absurd ?_ havail
      unfold availableVouchers
      rw [List.filter_eq_nil_iff.mpr ?_]
      · rfl
      · intro v hv
        have h2 := hf v hv
        simp at h2 ⊢
        exact h2
    | some a => exact ⟨a, rfl⟩
  have h1 : assign_voucher full_name ts₁ s =
      (AssignResult.success v₀.voucher_code,
        St.mk (markAssigned v₀.voucher_code s.vouchers)
          (s.mappings ++ [Mapping.mk ts₁ full_name v₀.voucher_code]) s.authorized_users) := by
    simp [assign_voucher, hauth, hfind_m, hfind]
  have hfilter2 : (s.mappings ++ [Mapping.mk ts₁ full_name v₀.voucher_code]).filter
      (fun m => m.full_name = full_name) = [Mapping.mk ts₁ full_name v₀.voucher_code] := by
    rw [List.filter_append]
    have hfe : s.mappings.filter (fun m => m.full_name = full_name) = [] := by
      rw [List.filter_eq_nil_iff]
      intro m hm
      simp [hno m hm]
    rw [hfe]
    simp
  refine ⟨v₀.voucher_code, ?_, ?_, ?_⟩
  · rw [h1]
  · rw [h1]
    simp [assign_voucher, hauth, hfind_m]
  · rw [h1]
    simp [assign_voucher, hauth, hfind_m, hfilter2]

/-- Witness for the amended C2 at a one-voucher store. -/
theorem assign_voucher_idempotent_witness :
    ∃ code,
      (assign_voucher "Jane Doe" "t1" (St.mk [Voucher.mk "A1" false] [] ["Jane Doe"])).1
        = AssignResult.success code ∧
      (assign_voucher "Jane Doe" "t2"
          ((assign_voucher "Jane Doe" "t1" (St.mk [Voucher.mk "A1" false] [] ["Jane Doe"])).2)).1
        = AssignResult.success code ∧
      (((assign_voucher "Jane Doe" "t2"
            ((assign_voucher "Jane Doe" "t1"
              (St.mk [Voucher.mk "A1" false] [] ["Jane Doe"])).2)).2).mappings.filter
          (fun m => m.full_name = "Jane Doe")).length = 1 :=
  assign_voucher_idempotent "Jane Doe" "t1" "t2"
    (St.mk [Voucher.mk "A1" false] [] ["Jane Doe"]) (by decide) (by decide) (by decide)

/-- Claim C10: a successful fresh assignment marks every store row whose
code equals the chosen code (the code of the first unassigned row), so one
call can consume several rows at once. -/
theorem assign_voucher_marks_all_matching (full_name ts : String) (s : St) (v₀ : Voucher)
    (hauth : is_user_authorized full_name s.authorized_users = true)
    (hno : ∀ m ∈ s.mappings, m.full_name ≠ full_name)
    (hhead : (s.vouchers.filter (fun v => v.assigned = false)).head? = some v₀) :
    (assign_voucher full_name ts s).1 = AssignResult.success v₀.voucher_code ∧
    ∀ v ∈ ((assign_voucher full_name ts s).2).vouchers,
      v.voucher_code = v₀.voucher_code → v.assigned = true := by
  have hfind_m : s.mappings.find? (fun m => m.full_name = full_name) = none := by
    rw [List.find?_eq_none]
    intro m hm
    simp [hno m hm]
  have hfind := hhead
  rw [List.filter_head?] at hfind
  simp at hfind
  have h1 : assign_voucher full_name ts s =
      (AssignResult.success v₀.voucher_code,
        St.mk (markAssigned v₀.voucher_code s.vouchers)
          (s.mappings ++ [Mapping.mk ts full_name v₀.voucher_code]) s.authorized_users) := by
    simp [assign_voucher, hauth, hfind_m, hfind]
  rw [h1]
  refine ⟨rfl, ?_⟩
  intro v hv hcode
  simp only [markAssigned, List.mem_map] at hv
  obtain ⟨w, hw, hwv⟩ := hv
  by_cases hc : w.voucher_code = v₀.voucher_code
  · simp [hc] at hwv
    rw [← hwv]
  · simp [hc] at hwv
    rw [← hwv] at hcode
    exact absurd hcode hc

/-- Witness for C10: a store holding the code "A1" twice; one call marks
both rows, leaving no available voucher. -/
theorem assign_voucher_marks_all_matching_witness :
    (assign_voucher "Alice Wang" "t"
        (St.mk [Voucher.mk "A1" false, Voucher.mk "A1" false] [] ["Alice Wang"])).1
      = AssignResult.success (Voucher.mk "A1" false).voucher_code ∧
    ∀ v ∈ ((assign_voucher "Alice Wang" "t"
        (St.mk [Voucher.mk "A1" false, Voucher.mk "A1" false] [] ["Alice Wang"])).2).vouchers,
      v.voucher_code = (Voucher.mk "A1" false).voucher_code → v.assigned = true :=
  assign_voucher_marks_all_matching "Alice Wang" "t"
    (St.mk [Voucher.mk "A1" false, Voucher.mk "A1" false] [] ["Alice Wang"])
    (Voucher.mk "A1" false) (by decide) (by decide) (by decide)

/-- Counterexample to claim C5 as stated: starting from the fresh state,
bring in a user and a voucher, assign it, then re-import the same voucher
file.  The re-import resets the `assigned` flag but the Mapping Log still holds
the old mapping, so the store/log invariant is broken. -/
theorem reimport_breaks_consistency :
    ¬ storeLogConsistent (run initialSt
      [Op.importUsers true ["Alice Wang"],
       Op.importVouchers (VoucherUpload.mk true ["A1"]),
       Op.assign "Alice Wang" "t",
       Op.importVouchers (VoucherUpload.mk true ["A1"])]) := by decide

/-- Claim C5, amended: the store/log invariant is preserved by every
`assign_voucher` call; it is voucher re-imports with a nonempty Mapping
Log that can break it, because the log is never cleared. -/
theorem assign_voucher_preserves_consistency (full_name ts : String) (s : St)
    (h : storeLogConsistent s) :
    storeLogConsistent ((assign_voucher full_name ts s).2) := by
  obtain ⟨h1, h2⟩ := h
  by_cases hauth : is_user_authorized full_name s.authorized_users = false
  · simp [assign_voucher, hauth]
    exact ⟨h1, h2⟩
  simp only [Bool.not_eq_false] at hauth
  cases hm : s.mappings.find? (fun m => m.full_name = full_name) with
  | some m =>
    simp [assign_voucher, hauth, hm]
    exact ⟨h1, h2⟩
  | none =>
    cases hv : List.find? (fun v => !v.assigned) s.vouchers with
    | none =>
      simp [assign_voucher, hauth, hm, hv]
      exact ⟨h1, h2⟩
    | some v₀ =>
      have hstate : (assign_voucher full_name ts s).2 =
          St.mk (markAssigned v₀.voucher_code s.vouchers)
            (s.mappings ++ [Mapping.mk ts full_name v₀.voucher_code])
            s.authorized_users := by
        simp [assign_voucher, hauth, hm, hv]
      have hvs : ((assign_voucher full_name ts s).2).vouchers
          = markAssigned v₀.voucher_code s.vouchers := by rw [hstate]
      have hms : ((assign_voucher full_name ts s).2).mappings
          = s.mappings ++ [Mapping.mk ts full_name v₀.voucher_code] := by rw [hstate]
      unfold storeLogConsistent
      rw [hvs, hms]
      constructor
      · intro v hv2 ha
        simp only [markAssigned, List.mem_map] at hv2
        obtain ⟨w, hw, hwv⟩ := hv2
        by_cases hc : w.voucher_code = v₀.voucher_code
        · refine ⟨Mapping.mk ts full_name v₀.voucher_code, by simp, ?_⟩
          rw [← hwv]
          simp [hc]
        · simp [hc] at hwv
          obtain ⟨mm, hmm, hmc⟩ := h1 w hw (by rw [hwv]; exact ha)
          exact ⟨mm, by simp [hmm], by rw [← hwv]; exact hmc⟩
      · intro m hm2
        rcases List.mem_append.mp hm2 with hold | hnew
        · obtain ⟨w, hw, hwc, hwa⟩ := h2 m hold
          by_cases hc : w.voucher_code = v₀.voucher_code
          · refine ⟨Voucher.mk w.voucher_code true, ?_, hwc, rfl⟩
            unfold markAssigned
            refine List.mem_map.mpr ⟨w, hw, ?_⟩
            simp [hc]
          · refine ⟨w, ?_, hwc, hwa⟩
            unfold markAssigned
            refine List.mem_map.mpr ⟨w, hw, ?_⟩
            simp [hc]
        · have hmeq : m = Mapping.mk ts full_name v₀.voucher_code := by simpa using hnew
          have hv₀ : v₀ ∈ s.vouchers := List.mem_of_find?_eq_some hv
          refine ⟨Voucher.mk v₀.voucher_code true, ?_, ?_, rfl⟩
          · unfold markAssigned
            exact List.mem_map.mpr ⟨v₀, hv₀, by simp⟩
          · rw [hmeq]

/-- Witness for the amended C5: a consistent one-voucher state stays
consistent through an assignment. -/
theorem assign_voucher_preserves_consistency_witness :
    storeLogConsistent (St.mk [Voucher.mk "A1" false] [] ["Alice Wang"]) ∧
    storeLogConsistent
      ((assign_voucher "Alice Wang" "t"
        (St.mk [Voucher.mk "A1" false] [] ["Alice Wang"])).2) :=
  ⟨by decide, assign_voucher_preserves_consistency "Alice Wang" "t"
    (St.mk [Voucher.mk "A1" false] [] ["Alice Wang"]) (by decide)⟩

/-- Counterexample to claim C6 as stated: importing a file whose
`voucher_code` column holds "A1" twice puts "A1" into the Voucher Store
twice — the import does not deduplicate. -/
theorem duplicate_import_duplicates_codes :
    ¬ ((run initialSt [Op.importVouchers (VoucherUpload.mk true ["A1", "A1"])]).vouchers.map
        (fun v => v.voucher_code)).Nodup := by decide

/-- Claim C6, amended: voucher codes stay pairwise distinct across every
sequence of operations provided the starting store's codes are distinct
and every voucher import in the sequence carries pairwise-distinct codes;
assignments and user imports never add store rows. -/
theorem run_codes_nodup (s : St) (ops : List Op)
    (h0 : ((s.vouchers.map (fun v => v.voucher_code))).Nodup)
    (h : ∀ op ∈ ops, opImportNodup op) :
    (((run s ops).vouchers.map (fun v => v.voucher_code))).Nodup := by
  induction ops generalizing s with
  | nil => exact h0
  | cons op rest ih =>
    rw [run, List.foldl_cons]
    rw [show List.foldl applyOp (applyOp s op) rest = run (applyOp s op) rest from rfl]
    refine ih (applyOp s op) ?_ (fun op2 hop2 => h op2 (List.mem_cons_of_mem _ hop2))
    cases op with
    | assign n ts =>
      have : ((assign_voucher n ts s).2).vouchers.map (fun v => v.voucher_code)
          = s.vouchers.map (fun v => v.voucher_code) := by
        unfold assign_voucher
        by_cases hauth : is_user_authorized n s.authorized_users = false
        · simp [hauth]
        · simp only [Bool.not_eq_false] at hauth
          cases hm : s.mappings.find? (fun m => m.full_name = n) with
          | some m => simp [hauth, hm]
          | none =>
            cases hv : List.find? (fun v => !v.assigned) s.vouchers with
            | none => simp [hauth, hm, hv]
            | some v₀ => simp [hauth, hm, hv, map_code_markAssigned]
      rw [show applyOp s (Op.assign n ts) = (assign_voucher n ts s).2 from rfl, this]
      exact h0
    | importVouchers u =>
      rw [show applyOp s (Op.importVouchers u) = (import_vouchers u s).2 from rfl]
      unfold import_vouchers
      cases hc : u.hasVoucherCodeColumn with
      | false => simp [hc]; exact h0
      | true =>
        simp only [Bool.true_eq_false, if_false]
        rw [List.map_map]
        rw [show ((fun v : Voucher => v.voucher_code) ∘ fun c => Voucher.mk c false) = id from
          rfl, List.map_id]
        exact h (Op.importVouchers u) (List.mem_cons_self _ _)
    | importUsers hcol ns =>
      rw [show applyOp s (Op.importUsers hcol ns) = (import_users hcol ns s).2 from rfl]
      unfold import_users
      cases hcol <;> exact h0

/-- Witness for the amended C6: two duplicate-free imports and an
assignment keep the stored codes distinct. -/
theorem run_codes_nodup_witness :
    ((initialSt.vouchers.map (fun v => v.voucher_code))).Nodup ∧
    (((run initialSt
        [Op.importUsers true ["Alice Wang"],
         Op.importVouchers (VoucherUpload.mk true ["A1", "A2"]),
         Op.assign "Alice Wang" "t",
         Op.importVouchers (VoucherUpload.mk true ["B1", "B2"])]).vouchers.map
        (fun v => v.voucher_code))).Nodup :=
  ⟨by decide, run_codes_nodup initialSt
    [Op.importUsers true ["Alice Wang"],
     Op.importVouchers (VoucherUpload.mk true ["A1", "A2"]),
     Op.assign "Alice Wang" "t",
     Op.importVouchers (VoucherUpload.mk true ["B1", "B2"])]
    (by decide) (by decide)⟩

theorem assignAll_exhaustion_aux (names : List String) (ts : String) :
    ∀ s : St, (s.vouchers.map (fun v => v.voucher_code)).Nodup →
      names.Nodup →
      names.length = availableVouchers s + 1 →
      (∀ n ∈ names, is_user_authorized n s.authorized_users = true) →
      (∀ m ∈ s.mappings, m.full_name ∉ names) →
      (assignAll names ts s).1
        = (unassignedCodes s).map AssignResult.success
            ++ [AssignResult.noVouchersAvailable] := by
  induction names with
  | nil =>
    intro s _ _ hlen _ _
    simp at hlen
  | cons n rest ih =>
    intro s hnodup hnames hlen hauth hfresh
    have hauth_n : is_user_authorized n s.authorized_users = true :=
      hauth n (List.mem_cons_self _ _)
    have hno : ∀ m ∈ s.mappings, m.full_name ≠ n := fun m hm he =>
      (hfresh m hm) (he ▸ List.mem_cons_self _ _)
    cases hfind : List.find? (fun v => !v.assigned) s.vouchers with
    | none =>
      have hfe : s.vouchers.filter (fun v => v.assigned = false) = [] := by
        rw [List.filter_eq_nil_iff]
        intro v hv
        have h2 := List.find?_eq_none.mp hfind v hv
        simp at h2 ⊢
        exact h2
      have havail : availableVouchers s = 0 := by
        unfold availableVouchers
        rw [hfe]
        rfl
      have hrest : rest = [] := by
        rw [havail] at hlen
        simpa using hlen
      subst hrest
      have hfind_m : s.mappings.find? (fun m => m.full_name = n) = none := by
        rw [List.find?_eq_none]
        intro m hm
        simp [hno m hm]
      have hcall : assign_voucher n ts s = (AssignResult.noVouchersAvailable, s) := by
        simp [assign_voucher, hauth_n, hfind_m, hfind]
      simp only [assignAll, hcall]
      unfold unassignedCodes
      rw [hfe]
      rfl
    | some v₀ =>
      obtain ⟨hres, hun, hcodes, hausers, hmaps⟩ :=
        assign_voucher_fresh_step n ts s v₀ hauth_n hno hnodup hfind
      obtain ⟨cs, hcs⟩ : ∃ cs, unassignedCodes s = v₀.voucher_code :: cs := by
        have hh : (s.vouchers.filter (fun v => v.assigned = false)).head? = some v₀ := by
          rw [List.filter_head?]
          simpa using hfind
        cases hf : s.vouchers.filter (fun v => v.assigned = false) with
        | nil => rw [hf] at hh; cases hh
        | cons a t =>
          rw [hf] at hh
          injection hh with ha
          refine ⟨t.map (fun v => v.voucher_code), ?_⟩
          unfold unassignedCodes
          rw [hf, ha]
          rfl
      have hun2 : unassignedCodes ((assign_voucher n ts s).2) = cs := by
        rw [hun, hcs]
        rfl
      have hnodup2 : (((assign_voucher n ts s).2).vouchers.map
          (fun v => v.voucher_code)).Nodup := by
        rw [hcodes]
        exact hnodup
      have hnames2 : rest.Nodup := (List.nodup_cons.mp hnames).2
      have hlen2 : rest.length = availableVouchers ((assign_voucher n ts s).2) + 1 := by
        rw [availableVouchers_eq_length, hun2]
        rw [availableVouchers_eq_length, hcs] at hlen
        simpa using hlen
      have hauth2 : ∀ n2 ∈ rest,
          is_user_authorized n2 ((assign_voucher n ts s).2).authorized_users = true := by
        intro n2 h2
        rw [hausers]
        exact hauth n2 (List.mem_cons_of_mem _ h2)
      have hfresh2 : ∀ m ∈ ((assign_voucher n ts s).2).mappings, m.full_name ∉ rest := by
        intro m hm
        rw [hmaps] at hm
        rcases List.mem_append.mp hm with hold | hnew
        · intro hr
          exact (hfresh m hold) (List.mem_cons_of_mem _ hr)
        · have hmeq : m = Mapping.mk ts n v₀.voucher_code := by simpa using hnew
          rw [hmeq]
          exact (List.nodup_cons.mp hnames).1
      have hih := ih ((assign_voucher n ts s).2) hnodup2 hnames2 hlen2 hauth2 hfresh2
      simp only [assignAll]
      rw [hres, hih, hun2, hcs]
      rfl

/-- Claim C1: with a Voucher Store whose codes are pairwise distinct (the
data model declares `code` unique) and N unassigned codes, N+1 distinct
authorized requesters with no prior mapping receive, in order, the N
unassigned codes in store iteration order — pairwise distinct — and then
one no-vouchers-available failure. -/
theorem assignAll_exhaustion (s : St) (ts : String) (names : List String)
    (hnodup : (s.vouchers.map (fun v => v.voucher_code)).Nodup)
    (hnames : names.Nodup)
    (hlen : names.length = availableVouchers s + 1)
    (hauth : ∀ n ∈ names, is_user_authorized n s.authorized_users = true)
    (hfresh : ∀ m ∈ s.mappings, m.full_name ∉ names) :
    (unassignedCodes s).Nodup ∧
    (assignAll names ts s).1
      = (unassignedCodes s).map AssignResult.success
          ++ [AssignResult.noVouchersAvailable] := by
  constructor
  · have hsub : (s.vouchers.filter (fun v => v.assigned = false)).Sublist s.vouchers :=
      List.filter_sublist _
    exact (hsub.map (fun v => v.voucher_code)).nodup hnodup
  · exact assignAll_exhaustion_aux names ts s hnodup hnames hlen hauth hfresh

/-- Witness for C1: two vouchers A1, A2 and three distinct authorized
requesters; the first two get A1 then A2, the third fails. -/
theorem assignAll_exhaustion_witness :
    (unassignedCodes (St.mk [Voucher.mk "A1" false, Voucher.mk "A2" false] []
        ["Alice Wang", "Bob Lee", "Cara Kim"])).Nodup ∧
    (assignAll ["Alice Wang", "Bob Lee", "Cara Kim"] "t"
        (St.mk [Voucher.mk "A1" false, Voucher.mk "A2" false] []
          ["Alice Wang", "Bob Lee", "Cara Kim"])).1
      = (unassignedCodes (St.mk [Voucher.mk "A1" false, Voucher.mk "A2" false] []
          ["Alice Wang", "Bob Lee", "Cara Kim"])).map AssignResult.success
          ++ [AssignResult.noVouchersAvailable] :=
  assignAll_exhaustion
    (St.mk [Voucher.mk "A1" false, Voucher.mk "A2" false] []
      ["Alice Wang", "Bob Lee", "Cara Kim"])
    "t" ["Alice Wang", "Bob Lee", "Cara Kim"]
    (by decide) (by decide) (by decide) (by decide) (by decide)
